import Mathlib

/-!
Verification of `.github/scripts/analyze_issue.py`.

The script is a linear pipeline: it reads GitHub-issue fields from the
environment, asks the Gemini model for a JSON-shaped analysis of the issue,
optionally performs a Tavily web search plus a second (enrichment) model call,
and posts a Slack block-kit message to a webhook.

The embedding below models:
  * Python text as `List Char` (`Str`), with `pyStrip` for `str.strip()`,
    `splitTicks` for `str.split("```")`, and `Str.take`/`drop` for slicing;
  * Python's `json.loads` as a fuel-based recursive-descent parser `jsonLoads`
    producing `Json` values (dicts become ordered key/value lists with
    last-write-wins insertion, as in Python);
  * the three external HTTP collaborators (Gemini, Tavily, Slack) as explicit
    oracle parameters: the Gemini replies are the `rawResponse`/`rawEnrich`
    text arguments, the Tavily client is a function argument returning either
    a result list or (for any raised exception) an error message string, and
    the Slack POST is a function argument returning success or failure;
  * Python exceptions that escape a function as `Except.error`.
-/

set_option maxRecDepth 8192

/-- Python text, modelled as a list of characters (code points). -/
abbrev Str := List Char

/-- The backtick character, written via its code point. -/
def bq : Char := Char.ofNat 96

/-- Characters stripped by Python `str.strip()` (ASCII whitespace). -/
def pyWS (c : Char) : Bool :=
  c = ' ' || c = '\t' || c = '\n' || c = '\r' || c = '\x0b' || c = '\x0c'

/-- Model of Python `str.strip()`: drop leading and trailing whitespace. -/
def pyStrip (s : Str) : Str :=
  (((s.dropWhile pyWS).reverse).dropWhile pyWS).reverse

/-- Model of Python `str.startswith(pre)`. -/
def startsWithStr : Str → Str → Bool
  | [], _ => true
  | _ :: _, [] => false
  | p :: ps, c :: cs => p = c && startsWithStr ps cs

/-- Worker for `splitTicks`: scan for the next occurrence of three consecutive
backticks, accumulating the current piece in reverse; when fewer than three
characters remain no separator can start, so the rest joins the piece. -/
def splitTicksAux : Str → Str → List Str
  | c1 :: c2 :: c3 :: rest, acc =>
    if c1 = bq ∧ c2 = bq ∧ c3 = bq then
      acc.reverse :: splitTicksAux rest []
    else
      splitTicksAux (c2 :: c3 :: rest) (c1 :: acc)
  | [c1, c2], acc => [(c2 :: c1 :: acc).reverse]
  | [c1], acc => [(c1 :: acc).reverse]
  | [], acc => [acc.reverse]

/-- Model of Python `str.split("```")` (used at lines 106 and 146 of the
script to strip markdown code fences). -/
def splitTicks (s : Str) : List Str := splitTicksAux s []

/-- Whether the text contains three consecutive backticks, i.e. an occurrence
of the `"```"` separator. -/
def containsTicks : Str → Bool
  | [] => false
  | c :: rest => (c = bq ∧ startsWithStr [bq, bq] rest) || containsTicks rest

/-- Lines 105-108 (and 145-148) of the script: if the model response starts
with a code fence, keep the text between the first two fences and drop a
leading `json` language tag. -/
def stripFence (s : Str) : Str :=
  if startsWithStr [bq, bq, bq] s then
    let s1 := (splitTicks s).getD 1 []
    if startsWithStr ['j', 's', 'o', 'n'] s1 then s1.drop 4 else s1
  else s

/-- Lines 102-109 (and 144-149) of the script: strip the raw model text,
remove an optional code fence, and strip again before `json.loads`. -/
def cleanResponse (raw : Str) : Str := pyStrip (stripFence (pyStrip raw))

/-- JSON values as returned by Python's `json.loads`.  Objects are ordered
association lists (Python dicts preserve insertion order); numbers are
rationals (mantissa times a power of ten). -/
inductive Json where
  | null
  | bool (b : Bool)
  | num (q : Rat)
  | str (s : String)
  | arr (items : List Json)
  | obj (entries : List (String × Json))

/-- JSON whitespace accepted between tokens by `json.loads`. -/
def jsonWSChar (c : Char) : Bool := c = ' ' || c = '\t' || c = '\n' || c = '\r'

/-- Skip JSON inter-token whitespace. -/
def skipWS (s : Str) : Str := s.dropWhile jsonWSChar

/-- Value of a hexadecimal digit, if any. -/
def hexVal (c : Char) : Option Nat :=
  if '0' ≤ c ∧ c ≤ '9' then some (c.toNat - 48)
  else if 'a' ≤ c ∧ c ≤ 'f' then some (c.toNat - 87)
  else if 'A' ≤ c ∧ c ≤ 'F' then some (c.toNat - 55)
  else none

/-- Translate a simple JSON string escape character. -/
def jsonEscChar (c : Char) : Option Char :=
  if c = '"' then some '"'
  else if c = '\\' then some '\\'
  else if c = '/' then some '/'
  else if c = 'b' then some '\x08'
  else if c = 'f' then some '\x0c'
  else if c = 'n' then some '\n'
  else if c = 'r' then some '\r'
  else if c = 't' then some '\t'
  else none

/-- Parse the body of a JSON string after the opening quote, returning the
decoded characters and the remaining input after the closing quote.
Surrogate-pair recombination of `\uXXXX` escapes is not modelled. -/
def parseStrBody : Nat → Str → Option (Str × Str)
  | 0, _ => none
  | fuel + 1, s =>
    match s with
    | [] => none
    | '"' :: rest => some ([], rest)
    | '\\' :: esc :: rest =>
      match jsonEscChar esc with
      | some c => (parseStrBody fuel rest).map (fun p => (c :: p.1, p.2))
      | none =>
        if esc = 'u' then
          match rest with
          | h1 :: h2 :: h3 :: h4 :: rest2 =>
            match hexVal h1, hexVal h2, hexVal h3, hexVal h4 with
            | some a, some b, some c, some d =>
              (parseStrBody fuel rest2).map
                (fun p => (Char.ofNat (((a * 16 + b) * 16 + c) * 16 + d) :: p.1, p.2))
            | _, _, _, _ => none
          | _ => none
        else none
    | c :: rest =>
      if c.toNat < 32 then none
      else (parseStrBody fuel rest).map (fun p => (c :: p.1, p.2))

/-- Decimal value of a digit string. -/
def digitsToNat (ds : Str) : Nat := ds.foldl (fun a c => a * 10 + (c.toNat - 48)) 0

/-- Parse a JSON number (grammar `-? int frac? exp?`), returned as a rational.
The `NaN`/`Infinity` extensions of Python's `json` module are not modelled. -/
def parseNumber (s : Str) : Option (Rat × Str) :=
  let (neg, s1) :=
    match s with
    | '-' :: r => (true, r)
    | _ => (false, s)
  let intDs := s1.takeWhile Char.isDigit
  if intDs.isEmpty then none
  else if intDs.length > 1 ∧ intDs.head? = some '0' then none
  else
    let s2 := s1.drop intDs.length
    let (fracDs, s3, fracOk) :=
      match s2 with
      | '.' :: r =>
        let f := r.takeWhile Char.isDigit
        (f, r.drop f.length, !f.isEmpty)
      | _ => ([], s2, true)
    if !fracOk then none
    else
      let (expSign, expDs, s4, expOk) :=
        match s3 with
        | 'e' :: r | 'E' :: r =>
          let (sg, r2) :=
            match r with
            | '+' :: r3 => ((1 : Int), r3)
            | '-' :: r3 => ((-1 : Int), r3)
            | _ => ((1 : Int), r)
          let eds := r2.takeWhile Char.isDigit
          (sg, eds, r2.drop eds.length, !eds.isEmpty)
        | _ => ((1 : Int), ([] : Str), s3, true)
      if !expOk then none
      else
        let mantissa : Int := (digitsToNat (intDs ++ fracDs) : Int)
        let mantissa : Int := if neg then -mantissa else mantissa
        let exp : Int := expSign * (digitsToNat expDs : Int) - (fracDs.length : Int)
        some ((mantissa : Rat) * (10 : Rat) ^ exp, s4)

/-- Insert a key into a Python dict modelled as an ordered association list:
an existing key keeps its position and gets the new value, a new key is
appended.  Models both dict construction in `json.loads` and the assignments
`analysis["search_results"] = ...` / `analysis["suggestions"] = ...`. -/
def dictInsert (d : List (String × Json)) (k : String) (v : Json) :
    List (String × Json) :=
  if d.any (fun p => p.1 == k) then
    d.map (fun p => if p.1 == k then (k, v) else p)
  else d ++ [(k, v)]

mutual

/-- Parse one JSON value, returning it and the unconsumed input. -/
def parseVal : Nat → Str → Option (Json × Str)
  | 0, _ => none
  | fuel + 1, s =>
    match skipWS s with
    | 'n' :: 'u' :: 'l' :: 'l' :: r => some (.null, r)
    | 't' :: 'r' :: 'u' :: 'e' :: r => some (.bool true, r)
    | 'f' :: 'a' :: 'l' :: 's' :: 'e' :: r => some (.bool false, r)
    | '"' :: r => (parseStrBody r.length r).map (fun p => (.str (String.mk p.1), p.2))
    | '[' :: r =>
      (match skipWS r with
       | ']' :: r2 => some (.arr [], r2)
       | _ => parseArrItems fuel r [])
    | '{' :: r =>
      (match skipWS r with
       | '}' :: r2 => some (.obj [], r2)
       | _ => parseObjItems fuel r [])
    | s1 => (parseNumber s1).map (fun p => (.num p.1, p.2))

/-- Parse the comma-separated items of a non-empty JSON array. -/
def parseArrItems : Nat → Str → List Json → Option (Json × Str)
  | 0, _, _ => none
  | fuel + 1, s, acc =>
    match parseVal fuel s with
    | none => none
    | some (v, r) =>
      match skipWS r with
      | ',' :: r2 => parseArrItems fuel r2 (v :: acc)
      | ']' :: r2 => some (.arr (v :: acc).reverse, r2)
      | _ => none

/-- Parse the comma-separated entries of a non-empty JSON object. -/
def parseObjItems : Nat → Str → List (String × Json) → Option (Json × Str)
  | 0, _, _ => none
  | fuel + 1, s, acc =>
    match skipWS s with
    | '"' :: r =>
      (match parseStrBody r.length r with
       | none => none
       | some (kcs, r2) =>
         match skipWS r2 with
         | ':' :: r3 =>
           (match parseVal fuel r3 with
            | none => none
            | some (v, r4) =>
              let acc2 := dictInsert acc (String.mk kcs) v
              match skipWS r4 with
              | ',' :: r5 => parseObjItems fuel r5 acc2
              | '}' :: r5 => some (.obj acc2, r5)
              | _ => none)
         | _ => none)
    | _ => none

end

/-- Model of Python `json.loads`: parse exactly one JSON document, allowing
surrounding whitespace.  Any parse error is `none` (a `JSONDecodeError`). -/
def jsonLoads (s : Str) : Option Json :=
  match parseVal (2 * s.length + 2) s with
  | some (v, r) => if (skipWS r).isEmpty then some v else none
  | none => none

/-- Model of Python `dict.get(k)` returning `none` when the key is absent. -/
def dictGet? (d : List (String × Json)) (k : String) : Option Json :=
  (d.find? (fun p => p.1 == k)).map Prod.snd

/-- Model of Python `dict.get(k)` with its `None` default, conflating Python
`None` with JSON `null` (both are falsy and the script only tests or forwards
the value). -/
def pyGet (d : List (String × Json)) (k : String) : Json :=
  (dictGet? d k).getD .null

/-- Model of Python `dict.get(k, dflt)`. -/
def pyGetD (d : List (String × Json)) (k : String) (dflt : Json) : Json :=
  (dictGet? d k).getD dflt

/-- Python truthiness of a parsed JSON value (`if analysis.get(...)`). -/
def truthy : Json → Bool
  | .null => false
  | .bool b => b
  | .num q => !(q == 0)
  | .str s => !(s == "")
  | .arr items => !items.isEmpty
  | .obj entries => !entries.isEmpty

/-- Truthiness of an environment variable as read by `os.environ.get`:
unset (`None`) and the empty string are both falsy. -/
def envTruthy : Option String → Bool
  | none => false
  | some s => !(s == "")

/-- One Tavily search result; the script reads `r["title"]` and
`r["content"]` (line 52). -/
structure TavilyResult where
  title : String
  content : String
deriving DecidableEq

/-- Python slicing `s[:n]` on a string, by code points. -/
def strTake (s : String) (n : Nat) : String := String.mk (s.data.take n)

/-- Fixed message returned by `web_search` when `TAVILY_API_KEY` is unset
(line 44). -/
def tavilyUnavailableMsg : String :=
  "Web search não disponível (TAVILY_API_KEY não configurada)"

/-- Fixed message returned by `web_search` when the result set is empty
(line 54). -/
def noResultsMsg : String := "Nenhum resultado encontrado"

/-- Model of `web_search` (lines 41-56).  The Tavily client is the oracle
`tavily`, called with the query and `max_results`; a raised exception is an
`Except.error` carrying `str(e)`, and any `KeyError`/attribute failure while
reading the response is likewise absorbed into the oracle, since the whole
call sits inside the `try` block.  The query keeps the dynamic type it has in
the script (`analysis["research_query"]`, a parsed JSON value). -/
def web_search (tavilyApiKey : Option String)
    (tavily : Json → Nat → Except String (List TavilyResult))
    (query : Json) : String :=
  if envTruthy tavilyApiKey = false then tavilyUnavailableMsg
  else
    match tavily query 3 with
    | .error e => "Erro na pesquisa: " ++ e
    | .ok rs =>
      let results := rs.map (fun r => "- " ++ r.title ++ ": " ++ strTake r.content 200 ++ "...")
      if results.isEmpty then noResultsMsg
      else String.intercalate "\n" results

/-- The fallback dict built at lines 115-122 when `json.loads` fails. -/
def fallbackAnalysis (responseText : Str) : List (String × Json) :=
  [("summary", .str (String.mk (responseText.take 500))),
   ("classification", .str "other"),
   ("priority", .str "medium"),
   ("suggestions", .arr [.str "Revisar a issue manualmente"]),
   ("needs_research", .bool false),
   ("research_query", .null)]

/-- Model of `analyze_with_gemini` (lines 59-154).  The issue title and body
only feed the prompts, so the two model replies are taken directly as the
text arguments `rawResponse` (first call, line 101) and `rawEnrich` (second
call, line 142); quantifying over them covers every title/body pair.  A
Python exception escaping the function is `Except.error`:
  * line 125 `analysis.get(...)` raises `AttributeError` when `json.loads`
    returned a non-dict value;
  * line 137 `analysis["suggestions"]` inside the enrichment prompt raises
    `KeyError` when research is triggered but the parsed dict has no
    `suggestions` key.
The enrichment `try` block (lines 143-152) swallows every failure: a parse
error, a non-dict enrichment value, and the `KeyError` from the eagerly
evaluated default `analysis["suggestions"]` all leave the dict unchanged. -/
def analyze_with_gemini (tavilyApiKey : Option String)
    (tavily : Json → Nat → Except String (List TavilyResult))
    (rawResponse : Str) (rawEnrich : Str) : Except String Json :=
  let responseText := cleanResponse rawResponse
  let analysis : Json :=
    match jsonLoads responseText with
    | some j => j
    | none => .obj (fallbackAnalysis responseText)
  match analysis with
  | .obj d =>
    if truthy (pyGet d "needs_research") && truthy (pyGet d "research_query") then
      let searchResults := web_search tavilyApiKey tavily (pyGet d "research_query")
      let d1 := dictInsert d "search_results" (.str searchResults)
      match dictGet? d1 "suggestions" with
      | none => .error "KeyError: suggestions"
      | some orig =>
        let d2 :=
          match jsonLoads (cleanResponse rawEnrich) with
          | some (.obj e) => dictInsert d1 "suggestions" ((dictGet? e "suggestions").getD orig)
          | _ => d1
        .ok (.obj d2)
    else .ok (.obj d)
  | _ => .error "AttributeError: get"

/-- The environment-provided issue fields and credentials read at lines
17-28 of the script (`os.environ.get`). -/
structure IssueEnv where
  slackWebhookUrl : Option String
  issueTitle : String
  issueNumber : String
  issueUrl : String
  issueAuthor : String
  assigneeUsername : String
  repoName : String

/-- The GitHub-username to Slack-id mapping of lines 32-35; in the source it
is the empty literal dict (only commented-out examples). -/
def USER_MAPPING : List (String × String) := []

/-- The `class_emoji` table of lines 164-170. -/
def classEmoji : List (String × String) :=
  [("bug", ":bug:"), ("feature", ":sparkles:"), ("question", ":question:"),
   ("documentation", ":books:"), ("other", ":memo:")]

/-- The `priority_emoji` table of lines 173-178. -/
def priorityEmoji : List (String × String) :=
  [("low", ":white_circle:"), ("medium", ":large_yellow_circle:"),
   ("high", ":large_orange_circle:"), ("critical", ":red_circle:")]

/-- Model of Python `repr` on parsed-JSON values, used by `str` on
containers.  Numeric formatting is approximated; no theorem below depends on
the exact text. -/
def pyRepr : Json → String
  | .null => "None"
  | .bool true => "True"
  | .bool false => "False"
  | .num q => if q.den = 1 then toString q.num else toString q.num ++ "/" ++ toString q.den
  | .str s => "'" ++ s ++ "'"
  | .arr items =>
    "[" ++ String.intercalate ", " (items.attach.map (fun x => pyRepr x.1)) ++ "]"
  | .obj entries =>
    "\x7b" ++
      String.intercalate ", "
        (entries.attach.map (fun x => "'" ++ x.1.1 ++ "': " ++ pyRepr x.1.2)) ++
      "\x7d"
decreasing_by
  · have := List.sizeOf_lt_of_mem x.2; simp at this ⊢; omega
  · rcases x with ⟨⟨k, v⟩, hx⟩
    have := List.sizeOf_lt_of_mem hx; simp at this ⊢; omega

/-- Model of Python `str(x)` as used in the f-strings of `send_to_slack`. -/
def pyToStr : Json → String
  | .str s => s
  | j => pyRepr j

/-- Model of Python iteration (`for s in ...`) over a parsed-JSON value, as
used on `analysis.get("suggestions", [])`: lists yield their items and
strings their characters.  Iterating a non-iterable raises `TypeError` in
Python; that case yields `[]` here and no claim depends on it. -/
def pyIter : Json → List Json
  | .arr items => items
  | .str s => s.toList.map (fun c => .str (String.mk [c]))
  | _ => []

/-- One Slack block-kit block, keeping the structure and texts of the
message literal at lines 191-249. -/
inductive SlackBlock where
  | header (text : String)
  | sectionFields (fields : List String)
  | sectionText (text : String)
  | divider
  | context (elements : List String)
deriving DecidableEq

/-- Model of Python `list.insert(-1, x)`: insert before the last element
(line 253). -/
def pyInsertPredLast (l : List α) (x : α) : List α :=
  l.take (l.length - 1) ++ x :: l.drop (l.length - 1)

/-- The footer context block (lines 239-247), naming author and model. -/
def footerBlock (env : IssueEnv) : SlackBlock :=
  .context ["Criada por: " ++ env.issueAuthor ++ " | Análise por: Gemini 2.0 Flash"]

/-- The extra context block noting that web research was performed
(lines 253-261). -/
def researchNoteBlock : SlackBlock :=
  .context ["🔍 _Pesquisa web realizada para complementar a análise_"]

/-- The base `blocks` list of the Slack message (lines 180-249), before the
optional research note is inserted. -/
def buildBaseBlocks (env : IssueEnv) (analysis : List (String × Json)) :
    List SlackBlock :=
  let classification := pyGetD analysis "classification" (.str "other")
  let priority := pyGetD analysis "priority" (.str "medium")
  let slackUserId := USER_MAPPING.lookup env.assigneeUsername
  let mention :=
    match slackUserId with
    | some uid => if uid == "" then "@" ++ env.assigneeUsername else "<@" ++ uid ++ ">"
    | none => "@" ++ env.assigneeUsername
  let suggestionsText :=
    String.intercalate "\n"
      ((pyIter (pyGetD analysis "suggestions" (.arr []))).map (fun s => "• " ++ pyToStr s))
  let classEmojiStr :=
    match classification with
    | .str s => (classEmoji.lookup s).getD ":memo:"
    | _ => ":memo:"
  let priorityEmojiStr :=
    match priority with
    | .str s => (priorityEmoji.lookup s).getD ":white_circle:"
    | _ => ":white_circle:"
  [.header ("📋 Nova Issue #" ++ env.issueNumber),
   .sectionFields ["*Repositório:*\n" ++ env.repoName,
                   "*Atribuída para:*\n" ++ mention],
   .sectionFields ["*Tipo:*\n" ++ classEmojiStr ++ " " ++ pyToStr classification,
                   "*Prioridade:*\n" ++ priorityEmojiStr ++ " " ++ pyToStr priority],
   .sectionText ("*Título:*\n<" ++ env.issueUrl ++ "|" ++ env.issueTitle ++ ">"),
   .sectionText ("*📝 Resumo da IA:*\n" ++ pyToStr (pyGetD analysis "summary" (.str "N/A"))),
   .sectionText ("*💡 Sugestões:*\n" ++ suggestionsText),
   .divider,
   footerBlock env]

/-- The final `blocks` list: the research note is inserted before the footer
exactly when `analysis.get("search_results")` is truthy (lines 252-261). -/
def buildSlackMessage (env : IssueEnv) (analysis : List (String × Json)) :
    List SlackBlock :=
  let base := buildBaseBlocks env analysis
  if truthy (pyGet analysis "search_results") then pyInsertPredLast base researchNoteBlock
  else base

/-- Model of `send_to_slack` (lines 157-275).  The HTTP POST plus
`raise_for_status` is the oracle `post`: `.ok` is a success status,
`.error` any `requests.exceptions.RequestException` (transport error or
non-success HTTP status), which the function logs and converts to `false`. -/
def send_to_slack (env : IssueEnv)
    (post : String → List SlackBlock → Except String Unit)
    (analysis : List (String × Json)) : Bool :=
  match env.slackWebhookUrl with
  | none => false
  | some url =>
    if url == "" then false
    else
      match post url (buildSlackMessage env analysis) with
      | .ok _ => true
      | .error _ => false

/-- A model response wrapped in ```` ```json ```` code-fence markers, the
form the prompt asks Gemini to avoid but models commonly emit. -/
def wrapJsonFence (t : Str) : Str :=
  bq :: bq :: bq :: 'j' :: 's' :: 'o' :: 'n' :: '\n' :: (t ++ '\n' :: bq :: bq :: [bq])

/-- A model response wrapped in plain ```` ``` ```` code-fence markers. -/
def wrapPlainFence (t : Str) : Str :=
  bq :: bq :: bq :: '\n' :: (t ++ '\n' :: bq :: bq :: [bq])

/-- A Tavily oracle standing for an unreachable network: every call raises. -/
def noTavily : Json → Nat → Except String (List TavilyResult) :=
  fun _ _ => .error "no network"

/-- Whether a dict contains the five fields the prompt requires. -/
def hasRequiredFields (d : List (String × Json)) : Bool :=
  (dictGet? d "summary").isSome && (dictGet? d "classification").isSome &&
  (dictGet? d "priority").isSome && (dictGet? d "suggestions").isSome &&
  (dictGet? d "needs_research").isSome

theorem find?_overwrite (d : List (String × Json)) (k : String) (v : Json) :
    List.find? (fun p => p.1 == k) (d.map (fun p => if (p.1 == k) = true then (k, v) else p)) =
      if (d.any fun p => p.1 == k) = true then some (k, v) else none := by
  induction d with
  | nil => simp
  | cons p d ih =>
    rw [List.map_cons]
    by_cases hp : p.1 = k
    · have hb : (p.1 == k) = true := beq_iff_eq.mpr hp
      rw [if_pos hb, List.find?_cons, List.any_cons, hb]
      simp [beq_self_eq_true]
    · have hb : (p.1 == k) = false := beq_eq_false_iff_ne.mpr hp
      rw [if_neg (by simp [hb]), List.find?_cons, List.any_cons, hb]
      simp only [beq_iff_eq] at ih
      simp [hb, ih, -List.find?_map]
      cases hd : d.any fun p => p.1 == k <;> simp [hd]

theorem find?_overwrite_ne (d : List (String × Json)) (k : String) (v : Json)
    (k' : String) (hne : (k == k') = false) :
    List.find? (fun p => p.1 == k') (d.map (fun p => if (p.1 == k) = true then (k, v) else p)) =
      List.find? (fun p => p.1 == k') d := by
  induction d with
  | nil => simp
  | cons p d ih =>
    rw [List.map_cons]
    by_cases hp : p.1 = k
    · have hb : (p.1 == k) = true := beq_iff_eq.mpr hp
      have hbk : (p.1 == k') = false := by rw [hp]; exact hne
      rw [if_pos hb, List.find?_cons, List.find?_cons]
      simp only [beq_iff_eq] at ih
      simp [hne, hbk, ih, -List.find?_map]
    · have hb : (p.1 == k) = false := beq_eq_false_iff_ne.mpr hp
      by_cases hpk : p.1 = k'
      · have hbk : (p.1 == k') = true := beq_iff_eq.mpr hpk
        rw [if_neg (by simp [hb]), List.find?_cons, List.find?_cons]
        simp [hbk, -List.find?_map]
      · have hbk : (p.1 == k') = false := beq_eq_false_iff_ne.mpr hpk
        rw [if_neg (by simp [hb]), List.find?_cons, List.find?_cons]
        simp only [beq_iff_eq] at ih
        simp [hbk, ih, -List.find?_map]

theorem dictGet?_dictInsert_self (d : List (String × Json)) (k : String) (v : Json) :
    dictGet? (dictInsert d k v) k = some v := by
  rw [dictInsert]
  split
  · rename_i h
    rw [dictGet?, find?_overwrite, if_pos h]
    rfl
  · rename_i h
    have hnone : List.find? (fun p => p.1 == k) d = none := by
      apply List.find?_eq_none.2
      intro x hx hbeq
      exact h (List.any_eq_true.2 ⟨x, hx, hbeq⟩)
    rw [dictGet?, List.find?_append, hnone]
    simp [List.find?_cons, beq_self_eq_true]

theorem dictGet?_dictInsert_ne (d : List (String × Json)) (k : String) (v : Json)
    (k' : String) (hne : k' ≠ k) :
    dictGet? (dictInsert d k v) k' = dictGet? d k' := by
  have hne' : (k == k') = false := by
    simp [beq_eq_false_iff_ne]
    exact Ne.symm hne
  rw [dictInsert]
  split
  · rw [dictGet?, find?_overwrite_ne _ _ _ _ hne']
    rfl
  · rw [dictGet?, dictGet?, List.find?_append]
    have hone : List.find? (fun p => p.1 == k') [(k, v)] = none := by simp [hne']
    rw [hone]
    simp

theorem dropWhile_head_false {p : Char → Bool} {l : Str} {c : Char} {r : Str}
    (h : l.dropWhile p = c :: r) : p c = false := by
  have hh := List.head?_dropWhile_not p l
  rw [h] at hh
  simpa using hh

theorem dropWhile_noop {p : Char → Bool} {l : Str}
    (h : ∀ c, l.head? = some c → p c = false) : l.dropWhile p = l := by
  cases l with
  | nil => rfl
  | cons c r =>
    rw [List.dropWhile_cons, h c rfl]
    simp

theorem pyStrip_cons_ws {c : Char} (s : Str) (h : pyWS c = true) :
    pyStrip (c :: s) = pyStrip s := by
  simp [pyStrip, List.dropWhile_cons, h]

theorem pyStrip_concat_ws {c : Char} (s : Str) (h : pyWS c = true) :
    pyStrip (s ++ [c]) = pyStrip s := by
  unfold pyStrip
  rw [List.dropWhile_append]
  by_cases he : (s.dropWhile pyWS).isEmpty
  · rw [if_pos he]
    have he' : s.dropWhile pyWS = [] := by simpa using he
    simp [List.dropWhile_cons, h, he']
  · rw [if_neg he, List.reverse_append]
    simp [List.dropWhile_cons, h]

theorem pyStrip_eq_self {s : Str}
    (h1 : ∀ c, s.head? = some c → pyWS c = false)
    (h2 : ∀ c, s.getLast? = some c → pyWS c = false) : pyStrip s = s := by
  unfold pyStrip
  have h3 : ∀ c, s.reverse.head? = some c → pyWS c = false := by
    intro c hc
    rw [List.head?_reverse] at hc
    exact h2 c hc
  rw [dropWhile_noop h1, dropWhile_noop h3, List.reverse_reverse]

theorem pyStrip_head_ws_false (s : Str) :
    ∀ c, (pyStrip s).head? = some c → pyWS c = false := by
  intro c hc
  unfold pyStrip at hc
  rw [List.head?_reverse] at hc
  obtain ⟨t, ht⟩ := @List.dropWhile_suffix Char ((s.dropWhile pyWS).reverse) pyWS
  have hrev : (s.dropWhile pyWS).reverse.getLast? = some c := by
    rw [← ht, List.getLast?_append, hc]
    rfl
  rw [List.getLast?_reverse] at hrev
  cases hA : s.dropWhile pyWS with
  | nil => rw [hA] at hrev; simp at hrev
  | cons a r =>
    rw [hA] at hrev
    simp only [List.head?_cons, Option.some.injEq] at hrev
    exact hrev ▸ dropWhile_head_false hA

theorem pyStrip_getLast_ws_false (s : Str) :
    ∀ c, (pyStrip s).getLast? = some c → pyWS c = false := by
  intro c hc
  unfold pyStrip at hc
  rw [List.getLast?_reverse] at hc
  cases hD : List.dropWhile pyWS ((s.dropWhile pyWS).reverse) with
  | nil => rw [hD] at hc; simp at hc
  | cons a r =>
    rw [hD] at hc
    simp only [List.head?_cons, Option.some.injEq] at hc
    exact hc ▸ dropWhile_head_false hD

theorem pyStrip_idem (s : Str) : pyStrip (pyStrip s) = pyStrip s :=
  pyStrip_eq_self (pyStrip_head_ws_false s) (pyStrip_getLast_ws_false s)

theorem pyStrip_sublist (s : Str) : pyStrip s <:+: s := by
  unfold pyStrip
  obtain ⟨t, ht⟩ := @List.dropWhile_suffix Char ((s.dropWhile pyWS).reverse) pyWS
  refine List.infix_iff_prefix_suffix.mpr
    ⟨s.dropWhile pyWS, ⟨t.reverse, ?_⟩, List.dropWhile_suffix pyWS⟩
  have h2 := congrArg List.reverse ht
  rw [List.reverse_append, List.reverse_reverse] at h2
  exact h2

theorem sw2_iff (r : Str) :
    startsWithStr [bq, bq] r = true ↔ ∃ z, r = bq :: bq :: z := by
  cases r with
  | nil => simp [startsWithStr]
  | cons x r' =>
    cases r' with
    | nil => simp [startsWithStr]
    | cons y z =>
      constructor
      · intro h
        simp only [startsWithStr, Bool.and_eq_true, decide_eq_true_eq] at h
        obtain ⟨h1, h2, _⟩ := h
        exact ⟨z, by rw [← h1, ← h2]⟩
      · rintro ⟨z', hz⟩
        cases hz
        simp [startsWithStr]

theorem sw3_iff (r : Str) :
    startsWithStr [bq, bq, bq] r = true ↔ ∃ z, r = bq :: bq :: bq :: z := by
  cases r with
  | nil => simp [startsWithStr]
  | cons x r' =>
    constructor
    · intro h
      simp only [startsWithStr, Bool.and_eq_true, decide_eq_true_eq] at h
      obtain ⟨h1, h2⟩ := h
      obtain ⟨z, hz⟩ := (sw2_iff r').mp (by
        cases r' with
        | nil => simp [startsWithStr] at h2
        | cons y z' => simpa [startsWithStr] using h2)
      exact ⟨z, by rw [← h1, hz]⟩
    · rintro ⟨z', hz⟩
      cases hz
      simp [startsWithStr]

theorem ct_cons_ne {c : Char} (l : Str) (hc : c ≠ bq) :
    containsTicks (c :: l) = containsTicks l := by
  simp [containsTicks, hc]

theorem ct_snoc_ne {c : Char} (hc : c ≠ bq) :
    ∀ s : Str, containsTicks s = false → containsTicks (s ++ [c]) = false := by
  intro s
  induction s with
  | nil =>
    intro _
    simp [containsTicks, startsWithStr]
  | cons a s ih =>
    intro h
    simp only [containsTicks, Bool.or_eq_false_iff] at h
    obtain ⟨h1, h2⟩ := h
    rw [List.cons_append]
    simp only [containsTicks, Bool.or_eq_false_iff]
    refine ⟨?_, ih h2⟩
    by_cases ha : a = bq
    · subst ha
      simp only [decide_eq_false_iff_not, not_and] at h1 ⊢
      intro _
      intro hsw
      obtain ⟨z, hz⟩ := (sw2_iff (s ++ [c])).mp hsw
      rcases s with _ | ⟨x, _ | ⟨y, s'⟩⟩
      · simp at hz
      · simp at hz
        exact hc hz.2.1
      · simp only [List.cons_append, List.cons.injEq] at hz
        exact (h1 trivial) ((sw2_iff (x :: y :: s')).mpr ⟨s', by rw [hz.1, hz.2.1]⟩)
    · simp [ha]

theorem sw_ticks_ct {l : Str} (h : startsWithStr [bq, bq, bq] l = true) :
    containsTicks l = true := by
  obtain ⟨z, hz⟩ := (sw3_iff l).mp h
  subst hz
  simp [containsTicks, startsWithStr]

theorem ct_append_ticks (a b : Str) :
    containsTicks (a ++ bq :: bq :: bq :: b) = true := by
  induction a with
  | nil => simp [containsTicks, startsWithStr]
  | cons x a ih => simp [containsTicks, ih]

theorem ct_iff (l : Str) :
    containsTicks l = true ↔ ∃ a b, l = a ++ bq :: bq :: bq :: b := by
  constructor
  · intro h
    induction l with
    | nil => simp [containsTicks] at h
    | cons c r ih =>
      simp only [containsTicks, Bool.or_eq_true] at h
      rcases h with h | h
      · simp only [decide_eq_true_eq] at h
        obtain ⟨hcq, hsw⟩ := h
        obtain ⟨z, hz⟩ := (sw2_iff r).mp hsw
        exact ⟨[], z, by rw [hcq, hz]; rfl⟩
      · obtain ⟨a, b, hab⟩ := ih h
        exact ⟨c :: a, b, by rw [hab]; rfl⟩
  · rintro ⟨a, b, rfl⟩
    exact ct_append_ticks a b

theorem ct_of_sublist {u l : Str} (hinf : u <:+: l) (h : containsTicks l = false) :
    containsTicks u = false := by
  by_contra hu
  rw [Bool.not_eq_false] at hu
  obtain ⟨a, b, rfl⟩ := (ct_iff u).mp hu
  obtain ⟨x, y, hxy⟩ := hinf
  have hl : containsTicks l = true :=
    (ct_iff l).mpr ⟨x ++ a, b ++ y, by rw [← hxy]; simp⟩
  rw [hl] at h
  cases h

theorem splitTicksAux_nil (acc : Str) : splitTicksAux [] acc = [acc.reverse] := rfl

theorem splitTicksAux_cons (c : Char) (rest acc : Str) :
    splitTicksAux (c :: rest) acc =
      if c = bq ∧ startsWithStr [bq, bq] rest then
        acc.reverse :: splitTicksAux (rest.drop 2) []
      else splitTicksAux rest (c :: acc) := by
  cases rest with
  | nil =>
    rw [if_neg (by simp [startsWithStr])]
    rfl
  | cons c2 rest2 =>
    cases rest2 with
    | nil =>
      rw [if_neg (by simp [startsWithStr])]
      rfl
    | cons c3 rest3 =>
      by_cases h : c = bq ∧ c2 = bq ∧ c3 = bq
      · rw [if_pos ⟨h.1, by simp [startsWithStr, h.2.1, h.2.2]⟩]
        simp only [splitTicksAux, if_pos h, List.drop_succ_cons, List.drop_zero]
      · rw [if_neg ?hneg]
        · simp only [splitTicksAux, if_neg h]
        case hneg =>
          rintro ⟨h1, hsw⟩
          simp only [startsWithStr, Bool.and_eq_true, decide_eq_true_eq] at hsw
          exact h ⟨h1, hsw.1.symm, hsw.2.1.symm⟩

theorem splitTicksAux_boundary (v : Str) :
    ∀ u acc, containsTicks u = false → u.getLast? ≠ some bq →
      splitTicksAux (u ++ bq :: bq :: bq :: v) acc =
        (acc.reverse ++ u) :: splitTicksAux v [] := by
  intro u
  induction u with
  | nil =>
    intro acc _ _
    rw [List.nil_append, splitTicksAux_cons,
      if_pos ⟨rfl, by simp [startsWithStr]⟩]
    simp
  | cons c u ih =>
    intro acc hct hlast
    rw [List.cons_append, splitTicksAux_cons, if_neg ?hcond]
    case hcond =>
      rintro ⟨hcq, hsw⟩
      subst hcq
      simp only [containsTicks, Bool.or_eq_false_iff, decide_eq_false_iff_not,
        not_and] at hct
      obtain ⟨h1, h2⟩ := hct
      obtain ⟨z, hz⟩ := (sw2_iff (u ++ bq :: bq :: bq :: v)).mp hsw
      rcases u with _ | ⟨x, _ | ⟨y, u'⟩⟩
      · exact hlast rfl
      · simp only [List.cons_append, List.nil_append, List.cons.injEq] at hz
        rw [List.getLast?_cons_cons, List.getLast?_singleton] at hlast
        exact hlast (by rw [hz.1])
      · simp only [List.cons_append, List.cons.injEq] at hz
        exact (h1 trivial) ((sw2_iff (x :: y :: u')).mpr ⟨u', by rw [hz.1, hz.2.1]⟩)
    · have hct' : containsTicks u = false := by
        simp only [containsTicks, Bool.or_eq_false_iff] at hct
        exact hct.2
      have hlast' : u.getLast? ≠ some bq := by
        rcases u with _ | ⟨x, u'⟩
        · simp
        · rw [List.getLast?_cons_cons] at hlast
          exact hlast
      rw [ih (c :: acc) hct' hlast']
      simp

theorem stripFence_noop {s : Str} (h : containsTicks s = false) :
    stripFence s = s := by
  have hno : ¬ startsWithStr [bq, bq, bq] s = true := by
    intro hsw
    rw [sw_ticks_ct hsw] at h
    cases h
  unfold stripFence
  rw [if_neg hno]

theorem cleanResponse_no_ticks {t : Str} (h : containsTicks t = false) :
    cleanResponse t = pyStrip t := by
  unfold cleanResponse
  rw [stripFence_noop (ct_of_sublist (pyStrip_sublist t) h), pyStrip_idem]

theorem splitTicks_wrapJson (t : Str) (h : containsTicks t = false) :
    splitTicks (wrapJsonFence t) =
      [[], 'j' :: 's' :: 'o' :: 'n' :: '\n' :: (t ++ ['\n']), []] := by
  have hct' : containsTicks ('j' :: 's' :: 'o' :: 'n' :: '\n' :: (t ++ ['\n'])) = false := by
    rw [ct_cons_ne _ (by decide), ct_cons_ne _ (by decide), ct_cons_ne _ (by decide),
      ct_cons_ne _ (by decide), ct_cons_ne _ (by decide)]
    exact ct_snoc_ne (by decide) t h
  have hlast' : ('j' :: 's' :: 'o' :: 'n' :: '\n' :: (t ++ ['\n'])).getLast? ≠ some bq := by
    have heq : 'j' :: 's' :: 'o' :: 'n' :: '\n' :: (t ++ ['\n']) =
        ('j' :: 's' :: 'o' :: 'n' :: '\n' :: t) ++ ['\n'] := by simp
    rw [heq, List.getLast?_concat]
    intro hx
    cases hx
  unfold splitTicks wrapJsonFence
  rw [splitTicksAux_cons, if_pos ⟨rfl, by simp [startsWithStr]⟩]
  simp only [List.drop_succ_cons, List.drop_zero]
  have harr : 'j' :: 's' :: 'o' :: 'n' :: '\n' :: (t ++ '\n' :: bq :: bq :: [bq]) =
      ('j' :: 's' :: 'o' :: 'n' :: '\n' :: (t ++ ['\n'])) ++ bq :: bq :: bq :: ([] : Str) := by
    simp
  rw [harr, splitTicksAux_boundary ([] : Str) _ ([] : Str) hct' hlast', splitTicksAux_nil]
  simp

theorem splitTicks_wrapPlain (t : Str) (h : containsTicks t = false) :
    splitTicks (wrapPlainFence t) = [[], '\n' :: (t ++ ['\n']), []] := by
  have hct' : containsTicks ('\n' :: (t ++ ['\n'])) = false := by
    rw [ct_cons_ne _ (by decide)]
    exact ct_snoc_ne (by decide) t h
  have hlast' : ('\n' :: (t ++ ['\n'])).getLast? ≠ some bq := by
    have heq : '\n' :: (t ++ ['\n']) = ('\n' :: t) ++ ['\n'] := by simp
    rw [heq, List.getLast?_concat]
    intro hx
    cases hx
  unfold splitTicks wrapPlainFence
  rw [splitTicksAux_cons, if_pos ⟨rfl, by simp [startsWithStr]⟩]
  simp only [List.drop_succ_cons, List.drop_zero]
  have harr : '\n' :: (t ++ '\n' :: bq :: bq :: [bq]) =
      ('\n' :: (t ++ ['\n'])) ++ bq :: bq :: bq :: ([] : Str) := by
    simp
  rw [harr, splitTicksAux_boundary ([] : Str) _ ([] : Str) hct' hlast', splitTicksAux_nil]
  simp

theorem stripFence_wrapJson (t : Str) (h : containsTicks t = false) :
    stripFence (wrapJsonFence t) = '\n' :: (t ++ ['\n']) := by
  unfold stripFence
  rw [if_pos (by simp [wrapJsonFence, startsWithStr])]
  rw [splitTicks_wrapJson t h]
  simp only [List.getD_cons_succ, List.getD_cons_zero]
  rw [if_pos (by simp [startsWithStr])]
  simp

theorem stripFence_wrapPlain (t : Str) (h : containsTicks t = false) :
    stripFence (wrapPlainFence t) = '\n' :: (t ++ ['\n']) := by
  unfold stripFence
  rw [if_pos (by simp [wrapPlainFence, startsWithStr])]
  rw [splitTicks_wrapPlain t h]
  simp only [List.getD_cons_succ, List.getD_cons_zero]
  rw [if_neg (by simp [startsWithStr])]

theorem pyStrip_wrapJson (t : Str) : pyStrip (wrapJsonFence t) = wrapJsonFence t := by
  apply pyStrip_eq_self
  · intro c hc
    rw [wrapJsonFence] at hc
    simp only [List.head?_cons, Option.some.injEq] at hc
    rw [← hc]
    decide
  · intro c hc
    have hconcat : wrapJsonFence t =
        (bq :: bq :: bq :: 'j' :: 's' :: 'o' :: 'n' :: '\n' :: (t ++ ['\n', bq, bq])) ++ [bq] := by
      simp [wrapJsonFence]
    rw [hconcat, List.getLast?_concat] at hc
    simp only [Option.some.injEq] at hc
    rw [← hc]
    decide

theorem pyStrip_wrapPlain (t : Str) : pyStrip (wrapPlainFence t) = wrapPlainFence t := by
  apply pyStrip_eq_self
  · intro c hc
    rw [wrapPlainFence] at hc
    simp only [List.head?_cons, Option.some.injEq] at hc
    rw [← hc]
    decide
  · intro c hc
    have hconcat : wrapPlainFence t =
        (bq :: bq :: bq :: '\n' :: (t ++ ['\n', bq, bq])) ++ [bq] := by
      simp [wrapPlainFence]
    rw [hconcat, List.getLast?_concat] at hc
    simp only [Option.some.injEq] at hc
    rw [← hc]
    decide

theorem cleanResponse_wrapJson (t : Str) (h : containsTicks t = false) :
    cleanResponse (wrapJsonFence t) = cleanResponse t := by
  unfold cleanResponse
  rw [pyStrip_wrapJson, stripFence_wrapJson t h,
    pyStrip_cons_ws _ (by decide), pyStrip_concat_ws _ (by decide),
    stripFence_noop (ct_of_sublist (pyStrip_sublist t) h), pyStrip_idem]

theorem cleanResponse_wrapPlain (t : Str) (h : containsTicks t = false) :
    cleanResponse (wrapPlainFence t) = cleanResponse t := by
  unfold cleanResponse
  rw [pyStrip_wrapPlain, stripFence_wrapPlain t h,
    pyStrip_cons_ws _ (by decide), pyStrip_concat_ws _ (by decide),
    stripFence_noop (ct_of_sublist (pyStrip_sublist t) h), pyStrip_idem]

theorem analyze_congr_cleanResponse {a b : Str}
    (h : cleanResponse a = cleanResponse b) (k : Option String)
    (t : Json → Nat → Except String (List TavilyResult)) (e : Str) :
    analyze_with_gemini k t a e = analyze_with_gemini k t b e := by
  unfold analyze_with_gemini
  rw [h]

theorem analyze_eval_fallback (k : Option String)
    (t : Json → Nat → Except String (List TavilyResult)) (raw e : Str)
    (h : jsonLoads (cleanResponse raw) = none) :
    analyze_with_gemini k t raw e =
      .ok (.obj (fallbackAnalysis (cleanResponse raw))) := by
  have hc : (truthy (pyGet (fallbackAnalysis (cleanResponse raw)) "needs_research") &&
      truthy (pyGet (fallbackAnalysis (cleanResponse raw)) "research_query")) = false := rfl
  simp only [analyze_with_gemini, h, hc]
  simp

theorem analyze_eval_nonobject (k : Option String)
    (t : Json → Nat → Except String (List TavilyResult)) (raw e : Str) (v : Json)
    (hv : jsonLoads (cleanResponse raw) = some v) (hnd : ∀ d, v ≠ .obj d) :
    analyze_with_gemini k t raw e = .error "AttributeError: get" := by
  cases v with
  | obj d => exact absurd rfl (hnd d)
  | null => simp only [analyze_with_gemini, hv]
  | bool b => simp only [analyze_with_gemini, hv]
  | num q => simp only [analyze_with_gemini, hv]
  | str s => simp only [analyze_with_gemini, hv]
  | arr l => simp only [analyze_with_gemini, hv]

theorem analyze_eval_noresearch (k : Option String)
    (t : Json → Nat → Except String (List TavilyResult)) (raw e : Str)
    (d : List (String × Json))
    (hparse : jsonLoads (cleanResponse raw) = some (.obj d))
    (hcond : (truthy (pyGet d "needs_research") &&
      truthy (pyGet d "research_query")) = false) :
    analyze_with_gemini k t raw e = .ok (.obj d) := by
  simp only [analyze_with_gemini, hparse, hcond]
  rfl

theorem analyze_eval_keyerror (k : Option String)
    (t : Json → Nat → Except String (List TavilyResult)) (raw e : Str)
    (d : List (String × Json))
    (hparse : jsonLoads (cleanResponse raw) = some (.obj d))
    (hcond : (truthy (pyGet d "needs_research") &&
      truthy (pyGet d "research_query")) = true)
    (hnone : dictGet? d "suggestions" = none) :
    analyze_with_gemini k t raw e = .error "KeyError: suggestions" := by
  simp only [analyze_with_gemini, hparse, hcond]
  rw [dictGet?_dictInsert_ne _ _ _ _ (by decide), hnone]
  simp

theorem analyze_eval_research (k : Option String)
    (t : Json → Nat → Except String (List TavilyResult)) (raw e : Str)
    (d : List (String × Json)) (orig : Json)
    (hparse : jsonLoads (cleanResponse raw) = some (.obj d))
    (hcond : (truthy (pyGet d "needs_research") &&
      truthy (pyGet d "research_query")) = true)
    (horig : dictGet? d "suggestions" = some orig) :
    analyze_with_gemini k t raw e =
      .ok (.obj
        (match jsonLoads (cleanResponse e) with
         | some (.obj enr) =>
           dictInsert
             (dictInsert d "search_results"
               (.str (web_search k t (pyGet d "research_query"))))
             "suggestions" ((dictGet? enr "suggestions").getD orig)
         | _ =>
           dictInsert d "search_results"
             (.str (web_search k t (pyGet d "research_query"))))) := by
  simp only [analyze_with_gemini, hparse, hcond]
  rw [dictGet?_dictInsert_ne _ _ _ _ (by decide), horig]
  simp

/-- C1 (counterexample): on the model response `"[1, 2]"` — valid JSON that is
not an object — the Analyzer does not return a five-field result without
raising: line 125 of the script calls `.get` on the parsed list, raising
`AttributeError`, modelled as `Except.error`.  (A response of `"\x7b\x7d"`
likewise refutes the field guarantee: the empty dict is returned as-is.) -/
theorem analyzer_nonobject_raises :
    analyze_with_gemini none noTavily ("[1, 2]".toList) [] =
      .error "AttributeError: get" := rfl

/-- C1 (amended): when the fence-stripped model response fails to parse as
JSON, the Analyzer returns the fallback dict, which contains all five
required fields, without raising; when it parses to a JSON object the object
is returned as-is on the no-research path (so fields may be missing); when it
parses to valid non-object JSON the Analyzer raises (`AttributeError`). -/
theorem analyzer_required_fields_amended (k : Option String)
    (t : Json → Nat → Except String (List TavilyResult)) (raw e : Str) :
    (jsonLoads (cleanResponse raw) = none →
      analyze_with_gemini k t raw e =
        .ok (.obj (fallbackAnalysis (cleanResponse raw))) ∧
      hasRequiredFields (fallbackAnalysis (cleanResponse raw)) = true) ∧
    (∀ d, jsonLoads (cleanResponse raw) = some (.obj d) →
      (truthy (pyGet d "needs_research") && truthy (pyGet d "research_query")) = false →
      analyze_with_gemini k t raw e = .ok (.obj d)) ∧
    (∀ v, jsonLoads (cleanResponse raw) = some v → (∀ d, v ≠ .obj d) →
      analyze_with_gemini k t raw e = .error "AttributeError: get") := by
  refine ⟨fun h => ⟨analyze_eval_fallback k t raw e h, rfl⟩,
    fun d hparse hcond => analyze_eval_noresearch k t raw e d hparse hcond,
    fun v hv hnd => analyze_eval_nonobject k t raw e v hv hnd⟩

/-- C1 (witness for the amended theorem): the unparsable response `"oops"`
takes the fallback branch and yields all five fields. -/
theorem analyzer_required_fields_amended_witness :
    jsonLoads (cleanResponse ("oops".toList)) = none ∧
    analyze_with_gemini none noTavily ("oops".toList) [] =
      .ok (.obj (fallbackAnalysis (cleanResponse ("oops".toList)))) ∧
    hasRequiredFields (fallbackAnalysis (cleanResponse ("oops".toList))) = true :=
  ⟨rfl, ((analyzer_required_fields_amended none noTavily ("oops".toList) []).1 rfl).1,
   ((analyzer_required_fields_amended none noTavily ("oops".toList) []).1 rfl).2⟩

/-- C2: whenever the fence-stripped response text fails to parse as JSON, the
Analyzer returns the degraded fallback result without raising: the summary is
the (stripped) response text truncated to 500 characters, classification is
"other", priority is "medium", suggestions is the single generic string,
needs_research is false and research_query is null. -/
theorem analyzer_parse_failure_fallback (k : Option String)
    (t : Json → Nat → Except String (List TavilyResult)) (raw e : Str)
    (h : jsonLoads (cleanResponse raw) = none) :
    analyze_with_gemini k t raw e =
      .ok (.obj [("summary", .str (String.mk ((cleanResponse raw).take 500))),
        ("classification", .str "other"),
        ("priority", .str "medium"),
        ("suggestions", .arr [.str "Revisar a issue manualmente"]),
        ("needs_research", .bool false),
        ("research_query", .null)]) :=
  analyze_eval_fallback k t raw e h

/-- C2 (witness): the unparsable response `"garbage text"` yields exactly the
degraded fallback result. -/
theorem analyzer_parse_failure_fallback_witness :
    jsonLoads (cleanResponse ("garbage text".toList)) = none ∧
    analyze_with_gemini none noTavily ("garbage text".toList) [] =
      .ok (.obj [("summary", .str "garbage text"),
        ("classification", .str "other"),
        ("priority", .str "medium"),
        ("suggestions", .arr [.str "Revisar a issue manualmente"]),
        ("needs_research", .bool false),
        ("research_query", .null)]) :=
  ⟨rfl, analyzer_parse_failure_fallback none noTavily ("garbage text".toList) [] rfl⟩

/-- C3 (counterexample): fence-wrapping is not transparent for every text.
For the response `"x```y"`, which itself contains the "```" separator, the
wrapped run keeps only the text up to the inner fence ("x"), while the direct
run keeps the whole text, so the two parsed analysis results differ. -/
theorem fence_wrap_not_transparent :
    analyze_with_gemini none noTavily (wrapJsonFence ("x```y".toList)) [] =
      .ok (.obj (fallbackAnalysis ("x".toList))) ∧
    analyze_with_gemini none noTavily ("x```y".toList) [] =
      .ok (.obj (fallbackAnalysis ("x```y".toList))) ∧
    analyze_with_gemini none noTavily (wrapJsonFence ("x```y".toList)) [] ≠
      analyze_with_gemini none noTavily ("x```y".toList) [] := by
  refine ⟨rfl, rfl, ?_⟩
  intro heq
  rw [show analyze_with_gemini none noTavily (wrapJsonFence ("x```y".toList)) [] =
      .ok (.obj (fallbackAnalysis ("x".toList))) from rfl,
    show analyze_with_gemini none noTavily ("x```y".toList) [] =
      .ok (.obj (fallbackAnalysis ("x```y".toList))) from rfl] at heq
  simp [fallbackAnalysis] at heq

/-- C3 (amended): for every model response text that does not itself contain
the "```" separator, wrapping it in ```` ```json ```` or plain ```` ``` ````
code fences (on their own lines) and running the Analyzer yields exactly the
same analysis result as running it on the unwrapped text. -/
theorem fence_wrap_equiv_no_inner_fence (k : Option String)
    (t : Json → Nat → Except String (List TavilyResult)) (e s : Str)
    (h : containsTicks s = false) :
    analyze_with_gemini k t (wrapJsonFence s) e = analyze_with_gemini k t s e ∧
    analyze_with_gemini k t (wrapPlainFence s) e = analyze_with_gemini k t s e :=
  ⟨analyze_congr_cleanResponse (cleanResponse_wrapJson s h) k t e,
   analyze_congr_cleanResponse (cleanResponse_wrapPlain s h) k t e⟩

/-- C3 (witness for the amended theorem): a fence-free JSON object behaves the
same wrapped and unwrapped. -/
theorem fence_wrap_equiv_no_inner_fence_witness :
    containsTicks ("\x7b\"a\": \"b\"\x7d".toList) = false ∧
    analyze_with_gemini none noTavily (wrapJsonFence ("\x7b\"a\": \"b\"\x7d".toList)) [] =
      analyze_with_gemini none noTavily ("\x7b\"a\": \"b\"\x7d".toList) [] ∧
    analyze_with_gemini none noTavily (wrapPlainFence ("\x7b\"a\": \"b\"\x7d".toList)) [] =
      analyze_with_gemini none noTavily ("\x7b\"a\": \"b\"\x7d".toList) [] :=
  ⟨rfl,
   (fence_wrap_equiv_no_inner_fence none noTavily [] ("\x7b\"a\": \"b\"\x7d".toList) rfl).1,
   (fence_wrap_equiv_no_inner_fence none noTavily [] ("\x7b\"a\": \"b\"\x7d".toList) rfl).2⟩

/-- C4: when research is triggered and the second (enrichment) model call's
fence-stripped output fails to parse as JSON, the enrichment failure is
swallowed: the Analyzer returns normally (no exception escapes) and the
result's suggestions field is exactly the original suggestions value. -/
theorem enrichment_parse_failure_keeps_suggestions (k : Option String)
    (t : Json → Nat → Except String (List TavilyResult)) (raw e : Str)
    (d : List (String × Json)) (orig : Json)
    (hparse : jsonLoads (cleanResponse raw) = some (.obj d))
    (hcond : (truthy (pyGet d "needs_research") &&
      truthy (pyGet d "research_query")) = true)
    (horig : dictGet? d "suggestions" = some orig)
    (henr : jsonLoads (cleanResponse e) = none) :
    analyze_with_gemini k t raw e =
      .ok (.obj (dictInsert d "search_results"
        (.str (web_search k t (pyGet d "research_query"))))) ∧
    dictGet? (dictInsert d "search_results"
        (.str (web_search k t (pyGet d "research_query")))) "suggestions" =
      some orig := by
  constructor
  · rw [analyze_eval_research k t raw e d orig hparse hcond horig, henr]
  · rw [dictGet?_dictInsert_ne _ _ _ _ (by decide), horig]

/-- C4 (witness): a concrete research-triggering analysis with unparsable
enrichment output keeps its single original suggestion. -/
theorem enrichment_parse_failure_keeps_suggestions_witness :
    jsonLoads (cleanResponse
      ("\x7b\"needs_research\": true, \"research_query\": \"q\", \"suggestions\": [\"a\"]\x7d".toList)) =
      some (.obj [("needs_research", .bool true), ("research_query", .str "q"),
        ("suggestions", .arr [.str "a"])]) ∧
    jsonLoads (cleanResponse ("oops".toList)) = none ∧
    analyze_with_gemini none noTavily
      ("\x7b\"needs_research\": true, \"research_query\": \"q\", \"suggestions\": [\"a\"]\x7d".toList)
      ("oops".toList) =
      .ok (.obj [("needs_research", .bool true), ("research_query", .str "q"),
        ("suggestions", .arr [.str "a"]),
        ("search_results", .str tavilyUnavailableMsg)]) ∧
    dictGet? [("needs_research", .bool true), ("research_query", .str "q"),
        ("suggestions", .arr [.str "a"]),
        ("search_results", .str tavilyUnavailableMsg)] "suggestions" =
      some (.arr [.str "a"]) := by
  refine ⟨rfl, rfl, ?_, ?_⟩
  · exact (enrichment_parse_failure_keeps_suggestions none noTavily
      ("\x7b\"needs_research\": true, \"research_query\": \"q\", \"suggestions\": [\"a\"]\x7d".toList)
      ("oops".toList)
      [("needs_research", .bool true), ("research_query", .str "q"),
        ("suggestions", .arr [.str "a"])] (.arr [.str "a"])
      rfl rfl rfl rfl).1
  · exact (enrichment_parse_failure_keeps_suggestions none noTavily
      ("\x7b\"needs_research\": true, \"research_query\": \"q\", \"suggestions\": [\"a\"]\x7d".toList)
      ("oops".toList)
      [("needs_research", .bool true), ("research_query", .str "q"),
        ("suggestions", .arr [.str "a"])] (.arr [.str "a"])
      rfl rfl rfl rfl).2

/-- C5: the Researcher is total (it returns a string for every query and every
Tavily outcome): with no credential configured it returns the fixed
unavailable message whatever the Tavily client would do (no network call is
consulted), and with a credential any exception raised by the search call is
converted into the descriptive "Erro na pesquisa: ..." string. -/
theorem web_search_total_and_guarded (q : Json) :
    (∀ k, envTruthy k = false → ∀ t, web_search k t q = tavilyUnavailableMsg) ∧
    (∀ k, envTruthy k = true → ∀ t msg, t q 3 = .error msg →
      web_search k t q = "Erro na pesquisa: " ++ msg) := by
  constructor
  · intro k hk t
    unfold web_search
    rw [hk]
    simp
  · intro k hk t msg ht
    unfold web_search
    rw [hk, ht]
    simp

/-- C5 (witness): with no key the unavailable message is returned even though
the Tavily oracle always raises; with a key the raised message is converted. -/
theorem web_search_total_and_guarded_witness :
    envTruthy none = false ∧
    web_search none noTavily (.str "query") = tavilyUnavailableMsg ∧
    envTruthy (some "KEY") = true ∧
    web_search (some "KEY") noTavily (.str "query") = "Erro na pesquisa: no network" :=
  ⟨rfl, (web_search_total_and_guarded (.str "query")).1 none rfl noTavily, rfl,
   (web_search_total_and_guarded (.str "query")).2 (some "KEY") rfl noTavily
     "no network" rfl⟩

/-- C6: with a credential configured, the Researcher's output is determined by
the single search call made with the query and a cap of three results: an
empty result set yields the fixed no-results string, and a non-empty one
yields one "- title: content[:200]..." line per result, joined by newlines. -/
theorem web_search_formats_results (k : String) (hk : ¬ k = "") (q : Json) :
    (∀ t1 t2, t1 q 3 = t2 q 3 →
      web_search (some k) t1 q = web_search (some k) t2 q) ∧
    (∀ t, t q 3 = .ok [] → web_search (some k) t q = noResultsMsg) ∧
    (∀ t rs, t q 3 = .ok rs → rs ≠ [] →
      web_search (some k) t q =
        String.intercalate "\n"
          (rs.map (fun r => "- " ++ r.title ++ ": " ++ strTake r.content 200 ++ "..."))) := by
  have hkt : envTruthy (some k) = true := by simp [envTruthy, hk]
  refine ⟨?_, ?_, ?_⟩
  · intro t1 t2 h
    unfold web_search
    rw [hkt, h]
  · intro t ht
    unfold web_search
    rw [hkt, ht]
    simp
  · intro t rs ht hrs
    unfold web_search
    rw [hkt, ht]
    simp only [Bool.true_eq_false, if_false]
    rw [if_neg (by simp [List.isEmpty_iff, hrs])]

/-- C6 (witness): zero results give the fixed no-results string; one result is
formatted as a single "- title: content..." line. -/
theorem web_search_formats_results_witness :
    web_search (some "KEY") (fun _ _ => .ok []) (.str "q") = noResultsMsg ∧
    web_search (some "KEY") (fun _ _ => .ok [⟨"T", "C"⟩]) (.str "q") = "- T: C..." := by
  constructor
  · exact (web_search_formats_results "KEY" (by simp) (.str "q")).2.1
      (fun _ _ => .ok []) rfl
  · have h := (web_search_formats_results "KEY" (by simp) (.str "q")).2.2
      (fun _ _ => .ok [⟨"T", "C"⟩]) [⟨"T", "C"⟩] rfl (by simp)
    rw [h]
    rfl

/-- C7: the Notifier never propagates an error: with no webhook URL configured
(unset or empty) it returns `false` whatever the POST oracle would do, and
with a URL it returns `true` exactly on a successful POST and `false` on any
transport error or non-success HTTP status (an `Except.error` of the POST
oracle, covering `raise_for_status`). -/
theorem send_to_slack_never_raises (env : IssueEnv)
    (analysis : List (String × Json)) :
    (env.slackWebhookUrl = none → ∀ post, send_to_slack env post analysis = false) ∧
    (∀ url, env.slackWebhookUrl = some url → url = "" →
      ∀ post, send_to_slack env post analysis = false) ∧
    (∀ url, env.slackWebhookUrl = some url → ¬ url = "" →
      (∀ post, post url (buildSlackMessage env analysis) = .ok () →
        send_to_slack env post analysis = true) ∧
      (∀ post msg, post url (buildSlackMessage env analysis) = .error msg →
        send_to_slack env post analysis = false)) := by
  refine ⟨?_, ?_, ?_⟩
  · intro h post
    unfold send_to_slack
    rw [h]
  · intro url h hempty post
    unfold send_to_slack
    rw [h]
    simp [hempty]
  · intro url h hne
    constructor
    · intro post hpost
      unfold send_to_slack
      rw [h]
      simp only [beq_iff_eq, if_neg hne]
      rw [hpost]
    · intro post msg hpost
      unfold send_to_slack
      rw [h]
      simp only [beq_iff_eq, if_neg hne]
      rw [hpost]

/-- Sample issue environments for the Notifier witnesses. -/
def sampleEnvNoHook : IssueEnv :=
  ⟨none, "Title", "1", "https://example/1", "author", "assignee", "repo"⟩

/-- Sample issue environment with a webhook URL configured. -/
def sampleEnvHook : IssueEnv :=
  ⟨some "https://hooks.example/x", "Title", "1", "https://example/1", "author",
    "assignee", "repo"⟩

/-- C7 (witness): no URL gives `false` even with an always-succeeding oracle;
with a URL, success gives `true` and an error gives `false`. -/
theorem send_to_slack_never_raises_witness :
    send_to_slack sampleEnvNoHook (fun _ _ => .ok ()) [] = false ∧
    send_to_slack sampleEnvHook (fun _ _ => .ok ()) [] = true ∧
    send_to_slack sampleEnvHook (fun _ _ => .error "boom") [] = false :=
  ⟨(send_to_slack_never_raises sampleEnvNoHook []).1 rfl (fun _ _ => .ok ()),
   ((send_to_slack_never_raises sampleEnvHook []).2.2 "https://hooks.example/x" rfl
     (by simp)).1 (fun _ _ => .ok ()) rfl,
   ((send_to_slack_never_raises sampleEnvHook []).2.2 "https://hooks.example/x" rfl
     (by simp)).2 (fun _ _ => .error "boom") "boom" rfl⟩

theorem pyInsertPredLast_concat {α : Type} (l : List α) (x last : α) :
    pyInsertPredLast (l ++ [last]) x = l ++ [x, last] := by
  unfold pyInsertPredLast
  have hlen : (l ++ [last]).length - 1 = l.length := by simp
  rw [hlen, List.take_left, List.drop_left]

/-- C8 (counterexample): the Analyzer does not cap suggestions at three
entries: a parsed model response carrying four suggestions is returned with
all four. -/
theorem suggestions_cap_violated :
    analyze_with_gemini none noTavily
      ("\x7b\"suggestions\": [\"a\", \"b\", \"c\", \"d\"], \"needs_research\": false\x7d".toList)
      [] =
      .ok (.obj [("suggestions", .arr [.str "a", .str "b", .str "c", .str "d"]),
        ("needs_research", .bool false)]) ∧
    dictGet? [("suggestions", .arr [.str "a", .str "b", .str "c", .str "d"]),
        ("needs_research", .bool false)] "suggestions" =
      some (.arr [.str "a", .str "b", .str "c", .str "d"]) ∧
    3 < [Json.str "a", .str "b", .str "c", .str "d"].length :=
  ⟨rfl, rfl, by decide⟩

/-- C8 (amended): the parse-failure fallback result's suggestions list has
exactly one entry (hence at most three); on the parsed no-research path the
Analyzer returns the model-supplied suggestions unchanged, enforcing no cap. -/
theorem suggestions_cap_amended (k : Option String)
    (t : Json → Nat → Except String (List TavilyResult)) (raw e : Str) :
    (jsonLoads (cleanResponse raw) = none →
      analyze_with_gemini k t raw e =
        .ok (.obj (fallbackAnalysis (cleanResponse raw))) ∧
      dictGet? (fallbackAnalysis (cleanResponse raw)) "suggestions" =
        some (.arr [.str "Revisar a issue manualmente"]) ∧
      [Json.str "Revisar a issue manualmente"].length ≤ 3) ∧
    (∀ d, jsonLoads (cleanResponse raw) = some (.obj d) →
      (truthy (pyGet d "needs_research") && truthy (pyGet d "research_query")) = false →
      analyze_with_gemini k t raw e = .ok (.obj d)) :=
  ⟨fun h => ⟨analyze_eval_fallback k t raw e h, rfl, by decide⟩,
   fun d hparse hcond => analyze_eval_noresearch k t raw e d hparse hcond⟩

/-- C8 (witness for the amended theorem): the fallback path on an unparsable
response has a one-element suggestions list. -/
theorem suggestions_cap_amended_witness :
    jsonLoads (cleanResponse ("not json".toList)) = none ∧
    analyze_with_gemini none noTavily ("not json".toList) [] =
      .ok (.obj (fallbackAnalysis (cleanResponse ("not json".toList)))) ∧
    dictGet? (fallbackAnalysis (cleanResponse ("not json".toList))) "suggestions" =
      some (.arr [.str "Revisar a issue manualmente"]) :=
  ⟨rfl, ((suggestions_cap_amended none noTavily ("not json".toList) []).1 rfl).1,
   ((suggestions_cap_amended none noTavily ("not json".toList) []).1 rfl).2.1⟩

/-- C9: the Notifier's block list always decomposes as the fixed base blocks
(ending in the footer context block), with the web-research context block
inserted immediately before the footer exactly when the analysis result has a
truthy `search_results` entry; all other blocks and their order are
unchanged. -/
theorem slack_blocks_research_note_iff (env : IssueEnv)
    (analysis : List (String × Json)) :
    buildSlackMessage env analysis =
      (buildBaseBlocks env analysis).dropLast
        ++ (if truthy (pyGet analysis "search_results") then [researchNoteBlock] else [])
        ++ [footerBlock env] := by
  have hB : buildBaseBlocks env analysis =
      (buildBaseBlocks env analysis).dropLast ++ [footerBlock env] := by
    unfold buildBaseBlocks
    simp
  unfold buildSlackMessage
  by_cases h : truthy (pyGet analysis "search_results") = true
  · rw [if_pos h, if_pos h]
    conv_lhs => rw [hB]
    rw [pyInsertPredLast_concat]
    simp
  · rw [if_neg h, if_neg h]
    simpa using hB

/-- C10: the research stage runs exactly when the parsed analysis has truthy
`needs_research` and truthy `research_query`.  On the fallback path and on the
parsed path with the condition false, the result is the input dict unchanged
(no `search_results` key added) and is independent of both the Tavily oracle
and the enrichment response (no search, no second model call); when the
condition holds (and `suggestions` is present so the enrichment prompt can be
built), the result carries `search_results` set to the web-search output. -/
theorem research_trigger_iff (k : Option String)
    (t1 t2 : Json → Nat → Except String (List TavilyResult)) (raw e1 e2 : Str) :
    (jsonLoads (cleanResponse raw) = none →
      analyze_with_gemini k t1 raw e1 =
        .ok (.obj (fallbackAnalysis (cleanResponse raw))) ∧
      analyze_with_gemini k t1 raw e1 = analyze_with_gemini k t2 raw e2) ∧
    (∀ d, jsonLoads (cleanResponse raw) = some (.obj d) →
      (truthy (pyGet d "needs_research") && truthy (pyGet d "research_query")) = false →
      analyze_with_gemini k t1 raw e1 = .ok (.obj d) ∧
      analyze_with_gemini k t1 raw e1 = analyze_with_gemini k t2 raw e2) ∧
    (∀ d orig, jsonLoads (cleanResponse raw) = some (.obj d) →
      (truthy (pyGet d "needs_research") && truthy (pyGet d "research_query")) = true →
      dictGet? d "suggestions" = some orig →
      ∃ d', analyze_with_gemini k t1 raw e1 = .ok (.obj d') ∧
        dictGet? d' "search_results" =
          some (.str (web_search k t1 (pyGet d "research_query")))) := by
  refine ⟨?_, ?_, ?_⟩
  · intro h
    exact ⟨analyze_eval_fallback k t1 raw e1 h,
      by rw [analyze_eval_fallback k t1 raw e1 h, analyze_eval_fallback k t2 raw e2 h]⟩
  · intro d hparse hcond
    exact ⟨analyze_eval_noresearch k t1 raw e1 d hparse hcond,
      by rw [analyze_eval_noresearch k t1 raw e1 d hparse hcond,
        analyze_eval_noresearch k t2 raw e2 d hparse hcond]⟩
  · intro d orig hparse hcond horig
    rw [analyze_eval_research k t1 raw e1 d orig hparse hcond horig]
    rcases hj : jsonLoads (cleanResponse e1) with _ | v
    · exact ⟨_, rfl, dictGet?_dictInsert_self _ _ _⟩
    · cases v with
      | obj enr =>
        refine ⟨_, rfl, ?_⟩
        rw [dictGet?_dictInsert_ne _ _ _ _ (by decide)]
        exact dictGet?_dictInsert_self _ _ _
      | null => exact ⟨_, rfl, dictGet?_dictInsert_self _ _ _⟩
      | bool b => exact ⟨_, rfl, dictGet?_dictInsert_self _ _ _⟩
      | num q => exact ⟨_, rfl, dictGet?_dictInsert_self _ _ _⟩
      | str s => exact ⟨_, rfl, dictGet?_dictInsert_self _ _ _⟩
      | arr l => exact ⟨_, rfl, dictGet?_dictInsert_self _ _ _⟩

/-- C10 (witness): a parsed result with `needs_research: true` but no
`research_query` performs no research: the dict is returned unchanged and the
outcome is the same under a different Tavily oracle and a different
enrichment response. -/
theorem research_trigger_iff_witness :
    jsonLoads (cleanResponse ("\x7b\"needs_research\": true\x7d".toList)) =
      some (.obj [("needs_research", .bool true)]) ∧
    analyze_with_gemini none noTavily ("\x7b\"needs_research\": true\x7d".toList)
      ("e1".toList) = .ok (.obj [("needs_research", .bool true)]) ∧
    analyze_with_gemini none noTavily ("\x7b\"needs_research\": true\x7d".toList)
      ("e1".toList) =
      analyze_with_gemini none (fun _ _ => .ok [])
        ("\x7b\"needs_research\": true\x7d".toList) ("e2".toList) := by
  refine ⟨rfl, ?_, ?_⟩
  · exact ((research_trigger_iff none noTavily (fun _ _ => .ok [])
      ("\x7b\"needs_research\": true\x7d".toList) ("e1".toList) ("e2".toList)).2.1
      [("needs_research", .bool true)] rfl rfl).1
  · exact ((research_trigger_iff none noTavily (fun _ _ => .ok [])
      ("\x7b\"needs_research\": true\x7d".toList) ("e1".toList) ("e2".toList)).2.1
      [("needs_research", .bool true)] rfl rfl).2
